import Mathlib

set_option maxHeartbeats 1000000
set_option maxRecDepth 4096

/-!
Shallow embedding of the answer normalization & validation engine of the
ocsjs-ai-answer-service repository (src/utils.py and src/utils_backup.py),
with theorems settling the frozen claims about it.

Python strings are modelled as Lean `String` (a list of Unicode scalar
values, matching Python's code-point semantics for indexing and `len`).
-/

/-- Python `str.lower` restricted to ASCII letters: CJK characters and
symbols are unchanged, which is exact for every string reachable in the
embedded code paths. -/
def lowerChar (c : Char) : Char :=
  if 'A' ≤ c ∧ c ≤ 'Z' then Char.ofNat (c.toNat + 32) else c

/-- Python `str.upper` restricted to ASCII letters. -/
def upperChar (c : Char) : Char :=
  if 'a' ≤ c ∧ c ≤ 'z' then Char.ofNat (c.toNat - 32) else c

/-- Whitespace as recognized by Python `str.strip` and the regex `\s`
(the common members: ASCII whitespace, NEL, NBSP, ideographic space). -/
def isPySpace (c : Char) : Bool :=
  c = ' ' ∨ c = '\t' ∨ c = '\n' ∨ c = '\r' ∨ c = '\x0b' ∨ c = '\x0c' ∨
    c.toNat = 0x85 ∨ c.toNat = 0xa0 ∨ c.toNat = 0x3000

/-- Remove trailing `isPySpace` characters. -/
def trimEndL (l : List Char) : List Char :=
  (l.reverse.dropWhile isPySpace).reverse

/-- Python `str.strip()` on a list of characters. -/
def stripL (l : List Char) : List Char :=
  trimEndL (l.dropWhile isPySpace)

/-- Python `str.strip()`. -/
def pyStrip (s : String) : String := ⟨stripL s.data⟩

/-- Python `str.lower()`. -/
def lowerStr (s : String) : String := ⟨s.data.map lowerChar⟩

/-- Python `str.upper()`. -/
def upperStr (s : String) : String := ⟨s.data.map upperChar⟩

/-- Python's substring test `p in l` on character lists. -/
def infixOfL (p l : List Char) : Bool :=
  l.tails.any (fun t => p.isPrefixOf t)

/-- Python's substring test `p in s`. -/
def occursStr (p s : String) : Bool := infixOfL p.data s.data

theorem infixOfL_iff (p l : List Char) : infixOfL p l = true ↔ p <:+: l := by
  unfold infixOfL
  rw [List.any_eq_true]
  constructor
  · rintro ⟨t, ht, hp⟩
    rw [List.mem_tails] at ht
    rw [List.isPrefixOf_iff_prefix] at hp
    exact hp.isInfix.trans ht.isInfix
  · rintro ⟨s, t, rfl⟩
    refine ⟨p ++ t, ?_, ?_⟩
    · rw [List.mem_tails]
      exact ⟨s, by simp⟩
    · rw [List.isPrefixOf_iff_prefix]
      exact ⟨t, rfl⟩

theorem infixOfL_false_iff (p l : List Char) :
    infixOfL p l = false ↔ ¬ p <:+: l := by
  rw [← infixOfL_iff]
  cases infixOfL p l <;> simp

/-- A single-character pattern occurs iff the character is a member. -/
theorem infixOfL_singleton (c : Char) (l : List Char) :
    infixOfL [c] l = true ↔ c ∈ l := by
  rw [infixOfL_iff]
  constructor
  · rintro ⟨s, t, rfl⟩; simp
  · intro hc
    obtain ⟨s, t, rfl⟩ := List.append_of_mem hc
    exact ⟨s, t, by simp⟩

theorem dropWhile_head_neg {p : α → Bool} {l : List α} {c : α} {t : List α}
    (h : l.dropWhile p = c :: t) : p c = false := by
  induction l with
  | nil => simp at h
  | cons x xs ih =>
    rw [List.dropWhile_cons] at h
    by_cases hx : p x
    · rw [if_pos hx] at h
      exact ih h
    · rw [if_neg hx] at h
      cases h
      simpa using hx

theorem dropWhile_dropWhile (p : α → Bool) (l : List α) :
    (l.dropWhile p).dropWhile p = l.dropWhile p := by
  rcases h : l.dropWhile p with _ | ⟨c, t⟩
  · simp
  · rw [List.dropWhile_cons, if_neg (by simp [dropWhile_head_neg h])]

theorem trimEndL_trimEndL (l : List Char) :
    trimEndL (trimEndL l) = trimEndL l := by
  unfold trimEndL
  rw [List.reverse_reverse, dropWhile_dropWhile]

theorem trimEndL_front (l : List Char) : trimEndL l <+: l := by
  rw [← List.reverse_suffix]
  unfold trimEndL
  rw [List.reverse_reverse]
  exact l.reverse.dropWhile_suffix isPySpace

theorem trimEndL_sub (l : List Char) : trimEndL l <:+: l :=
  (trimEndL_front l).isInfix

theorem stripL_sub (l : List Char) : stripL l <:+: l := by
  unfold stripL
  exact (trimEndL_sub _).trans (l.dropWhile_suffix isPySpace).isInfix

theorem dropWhile_stripL (l : List Char) :
    (stripL l).dropWhile isPySpace = stripL l := by
  unfold stripL
  rcases h2 : trimEndL (l.dropWhile isPySpace) with _ | ⟨d, u⟩
  · simp
  · rcases h : l.dropWhile isPySpace with _ | ⟨c, t⟩
    · rw [h] at h2; simp [trimEndL] at h2
    · have hc : isPySpace c = false := dropWhile_head_neg h
      have hpre : d :: u <+: c :: t := by rw [← h2, ← h]; exact trimEndL_front _
      obtain ⟨r, hr⟩ := hpre
      have hd : d = c := by
        have := hr
        simp only [List.cons_append] at this
        exact (List.cons.injEq d (u ++ r) c t).mp this |>.1
      rw [List.dropWhile_cons, if_neg (by simp [hd, hc])]

theorem stripL_idem (l : List Char) : stripL (stripL l) = stripL l := by
  conv_lhs => rw [stripL]
  rw [dropWhile_stripL]
  conv_lhs => rw [stripL]
  rw [trimEndL_trimEndL, ← stripL]

theorem pyStrip_idem (s : String) : pyStrip (pyStrip s) = pyStrip s := by
  unfold pyStrip
  rw [stripL_idem]

/-- Python `str.split(c)` for a one-character separator (keeps empty parts). -/
def splitOnCharL (c : Char) : List Char → List (List Char)
  | [] => [[]]
  | x :: xs =>
    if x = c then [] :: splitOnCharL c xs
    else
      match splitOnCharL c xs with
      | [] => [[x]]
      | h :: t => (x :: h) :: t

theorem splitOnCharL_not_mem (c : Char) (l : List Char) (h : c ∉ l) :
    splitOnCharL c l = [l] := by
  induction l with
  | nil => rfl
  | cons x xs ih =>
    have hx : ¬ x = c := fun hc => h (hc ▸ List.mem_cons_self x xs)
    have hxs : c ∉ xs := fun hc => h (List.mem_cons_of_mem x hc)
    rw [splitOnCharL, if_neg hx, ih hxs]

/-- `(before, after)` around the first occurrence of `sep` (none if absent);
matches the behaviour of a leftmost search for a literal pattern. -/
def breakFirstL (sep : List Char) : List Char → Option (List Char × List Char)
  | [] => if sep.isEmpty then some ([], []) else none
  | c :: cs =>
    if sep.isPrefixOf (c :: cs) then some ([], (c :: cs).drop sep.length)
    else
      match breakFirstL sep cs with
      | none => none
      | some (b, a) => some (c :: b, a)

/-- If `sep` has no nonempty proper border and does not occur in `body`, the
first occurrence of `sep` in `body ++ sep` is the final one. -/
theorem breakFirstL_append_self (sep : List Char) (hne : sep ≠ [])
    (hb : ∀ k, 0 < k → k < sep.length → sep.drop k ≠ sep.take (sep.length - k))
    (body : List Char) (h : infixOfL sep body = false) :
    breakFirstL sep (body ++ sep) = some (body, []) := by
  induction body with
  | nil =>
    rcases sep with _ | ⟨s, ss⟩
    · exact absurd rfl hne
    · rw [List.nil_append, breakFirstL,
        if_pos (List.isPrefixOf_iff_prefix.mpr (List.prefix_refl _))]
      simp
  | cons c bs ih =>
    rw [infixOfL_false_iff] at h
    have hbs : infixOfL sep bs = false := by
      rw [infixOfL_false_iff]
      intro hin
      exact h (List.infix_cons hin)
    rw [List.cons_append, breakFirstL, if_neg ?_]
    · rw [ih hbs]
    intro hpre
    rw [List.isPrefixOf_iff_prefix] at hpre
    rw [← List.cons_append] at hpre
    by_cases hlen : sep.length ≤ (c :: bs).length
    · exact h ((List.prefix_of_prefix_length_le hpre ⟨sep, rfl⟩ hlen).isInfix)
    · push_neg at hlen
      obtain ⟨t, ht⟩ := hpre
      set k := (c :: bs).length with hk
      have hk0 : 0 < k := by simp [hk]
      have hdropeq : sep.drop k ++ t = sep := by
        have := congrArg (fun x => x.drop k) ht
        simp only [List.drop_append_of_le_length (le_of_lt hlen)] at this
        rw [this]
        rw [hk, List.drop_left]
      have htake : sep.take (sep.length - k) = sep.drop k := by
        have h1 : (sep.drop k ++ t).take (sep.drop k).length = sep.drop k :=
          List.take_left (sep.drop k) t
        rw [hdropeq] at h1
        rw [List.length_drop] at h1
        exact h1
      exact (hb k hk0 hlen) (htake ▸ rfl)

def openAnswerTag : List Char := "<answer>".data

def closeAnswerTag : List Char := "</answer>".data

/-- The leftmost match of the (non-greedy) pattern `<answer>(.*?)</answer>`:
the earliest `<answer>` that is followed by a `</answer>`, with the shortest
content. -/
def firstAnswerTagL : List Char → Option (List Char)
  | [] => none
  | c :: cs =>
    if openAnswerTag.isPrefixOf (c :: cs) then
      match breakFirstL closeAnswerTag ((c :: cs).drop openAnswerTag.length) with
      | some (b, _) => some b
      | none => firstAnswerTagL cs
    else firstAnswerTagL cs

def firstAnswerTag (s : String) : Option String :=
  (firstAnswerTagL s.data).map (fun l => ⟨l⟩)

theorem mkString_data (l : List Char) : (⟨l⟩ : String).data = l := rfl

theorem firstAnswerTag_of_wrapped (body : String)
    (h : occursStr "</answer>" body = false) :
    firstAnswerTag ("<answer>" ++ body ++ "</answer>") = some body := by
  unfold firstAnswerTag
  have hdata : ("<answer>" ++ body ++ "</answer>").data
      = openAnswerTag ++ (body.data ++ closeAnswerTag) := by
    simp [String.data_append, openAnswerTag, closeAnswerTag, List.append_assoc]
  rw [hdata]
  have h' : infixOfL closeAnswerTag body.data = false := h
  have hcons : openAnswerTag ++ (body.data ++ closeAnswerTag)
      = '<' :: ("answer>".data ++ (body.data ++ closeAnswerTag)) := rfl
  have key : firstAnswerTagL (openAnswerTag ++ (body.data ++ closeAnswerTag))
      = some body.data := by
    rw [hcons, firstAnswerTagL]
    rw [if_pos (by
      rw [List.isPrefixOf_iff_prefix]
      exact ⟨body.data ++ closeAnswerTag, hcons.symm⟩)]
    rw [← hcons, List.drop_left]
    rw [breakFirstL_append_self closeAnswerTag (by decide)
      (by
        intro k h1 h2
        have h9 : k < 9 := by simpa [closeAnswerTag] using h2
        interval_cases k <;> decide)
      body.data h']
  rw [key]
  rfl

def openThinkTag : List Char := "<thinking>".data

def closeThinkTag : List Char := "</thinking>".data

/-- `re.sub(r"<thinking>.*?</thinking>", "", s, flags=re.DOTALL)`: remove
every non-overlapping leftmost-shortest thinking span. -/
def removeThinkFuel : Nat → List Char → List Char
  | 0, l => l
  | _ + 1, [] => []
  | fuel + 1, c :: cs =>
    if openThinkTag.isPrefixOf (c :: cs) then
      match breakFirstL closeThinkTag ((c :: cs).drop openThinkTag.length) with
      | some (_, rest) => removeThinkFuel fuel rest
      | none => c :: removeThinkFuel fuel cs
    else c :: removeThinkFuel fuel cs

def removeThinking (s : String) : String :=
  ⟨removeThinkFuel s.data.length s.data⟩

/-- `ai_response.split("答案：")[-1]`: the suffix after the final occurrence
of the (non-self-overlapping) label, or the whole string if absent. -/
def afterLabel (s : String) : String :=
  match breakFirstL "答案：".data.reverse s.data.reverse with
  | some (b, _) => ⟨b.reverse⟩
  | none => s

/-- `answer.replace("；", "#").replace(";", "#")` as a character map. -/
def repSepChar (c : Char) : Char :=
  if c = '；' ∨ c = ';' then '#' else c

def repSeps (s : String) : String := ⟨s.data.map repSepChar⟩

theorem repSeps_eq_self (s : String)
    (h1 : occursStr "；" s = false) (h2 : occursStr ";" s = false) :
    repSeps s = s := by
  unfold repSeps
  unfold occursStr at h1 h2
  have m1 : ¬ '；' ∈ s.data := by
    intro h
    have := (infixOfL_singleton '；' s.data).mpr h
    rw [show (("；" : String).data) = ['；'] from rfl] at h1
    rw [h1] at this
    exact Bool.false_ne_true this
  have m2 : ¬ ';' ∈ s.data := by
    intro h
    have := (infixOfL_singleton ';' s.data).mpr h
    rw [show ((";" : String).data) = [';'] from rfl] at h2
    rw [h2] at this
    exact Bool.false_ne_true this
  have : s.data.map repSepChar = s.data.map id := by
    apply List.map_congr_left
    intro c hc
    unfold repSepChar
    rw [if_neg]
    · rfl
    rintro (rfl | rfl)
    · exact m1 hc
    · exact m2 hc
  rw [this, List.map_id]

/-- The fixed "true" synonym family of the judgement classifier
(src/utils.py lines 295, 317, 336). -/
def judgementTrueList : List String := ["正确", "对", "是", "true", "yes", "√"]

/-- The fixed "false" synonym family (src/utils.py lines 297, 319, 338). -/
def judgementFalseList : List String := ["错误", "错", "否", "false", "no", "×"]

def judgementFamily : List String := judgementTrueList ++ judgementFalseList

/-- The judgement canonicalization performed (three identical times) inside
`extract_answer` (src/utils.py lines 293-308, 315-328, 334-347). -/
def judgementCanon (answer : String) : String :=
  let al := pyStrip (lowerStr answer)
  if al ∈ judgementTrueList then "正确"
  else if al ∈ judgementFalseList then "错误"
  else if occursStr "正确" answer || occursStr "对" answer || occursStr "是" answer then
    "正确"
  else if occursStr "错误" answer || occursStr "错" answer || occursStr "否" answer then
    "错误"
  else "正确"

/-- `extract_answer` of src/utils.py (the live module imported by app.py).
Branches: `<answer>` tag content, then the `答案：` label, then the
thinking-stripped bare reply; judgement replies are canonicalized. -/
def extract_answer (ai_response question_type : String) : String :=
  match firstAnswerTag ai_response with
  | some content =>
    let answer := pyStrip content
    let answer :=
      if occursStr "#" answer || occursStr "；" answer || occursStr ";" answer then
        repSeps answer
      else answer
    if question_type = "judgement" then judgementCanon answer else answer
  | none =>
    if occursStr "答案：" ai_response then
      let answer := pyStrip (afterLabel ai_response)
      if question_type = "judgement" then judgementCanon answer else answer
    else
      let cleaned := pyStrip (removeThinking ai_response)
      if question_type = "judgement" then judgementCanon cleaned else cleaned

/-- In every branch, the judgement result is the canonicalization of the text
that a Single/Multiple extraction would return. -/
theorem extract_answer_judgement_eq (s : String) :
    extract_answer s "judgement" = judgementCanon (extract_answer s "single") := by
  have hsj : ¬ ("single" : String) = "judgement" := by decide
  unfold extract_answer
  rcases firstAnswerTag s with _ | content
  · cases h : occursStr "答案：" s <;> simp [hsj]
  · simp [hsj]

theorem judgementCanon_total (t : String) :
    judgementCanon t = "正确" ∨ judgementCanon t = "错误" := by
  unfold judgementCanon
  dsimp only
  split_ifs <;> simp

theorem infixOfL_map_fixed (f : Char → Char) (p l : List Char)
    (hf : ∀ c ∈ p, f c = c) (h : infixOfL p l = true) :
    infixOfL p (l.map f) = true := by
  rw [infixOfL_iff] at h ⊢
  obtain ⟨s, t, rfl⟩ := h
  refine ⟨s.map f, t.map f, ?_⟩
  have hp : p.map f = p := by
    rw [List.map_congr_left hf, List.map_id']
  rw [List.map_append, List.map_append, hp]

theorem occurs_lower_of_occurs_fixed (syn t : String)
    (hf : ∀ c ∈ syn.data, lowerChar c = c)
    (ho : occursStr syn t = true) : occursStr syn (lowerStr t) = true := by
  unfold occursStr at ho ⊢
  unfold lowerStr
  rw [mkString_data]
  exact infixOfL_map_fixed lowerChar _ _ hf ho

theorem judgementCanon_default (t : String)
    (h : ∀ syn ∈ judgementFamily, occursStr syn (lowerStr t) = false) :
    judgementCanon t = "正确" := by
  unfold judgementCanon
  dsimp only
  split_ifs with h1 h2 h3 h4
  · rfl
  · exfalso
    have hthis := h _ (List.mem_append_right _ h2)
    unfold occursStr at hthis
    rw [infixOfL_false_iff] at hthis
    exact hthis (show (pyStrip (lowerStr t)).data <:+: (lowerStr t).data from
      stripL_sub _)
  · rfl
  · exfalso
    rcases (Bool.or_eq_true _ _).mp h4 with h5 | h6
    · rcases (Bool.or_eq_true _ _).mp h5 with h7 | h8
      · have hocc := occurs_lower_of_occurs_fixed "错误" t (by decide) h7
        rw [h "错误" (by decide)] at hocc
        exact Bool.false_ne_true hocc
      · have hocc := occurs_lower_of_occurs_fixed "错" t (by decide) h8
        rw [h "错" (by decide)] at hocc
        exact Bool.false_ne_true hocc
    · have hocc := occurs_lower_of_occurs_fixed "否" t (by decide) h6
      rw [h "否" (by decide)] at hocc
      exact Bool.false_ne_true hocc
  · rfl

/-- C2: for every input reply, the judgement extraction of `extract_answer`
returns exactly one of the canonical tokens `正确` / `错误`, and when no
member of either synonym family occurs (case-insensitively) in the stripped
reply (the text a non-judgement extraction would return), it defaults to
`正确`. -/
theorem judgement_extraction_total_and_default (s : String) :
    (extract_answer s "judgement" = "正确" ∨ extract_answer s "judgement" = "错误") ∧
    ((∀ syn ∈ judgementFamily,
        occursStr syn (lowerStr (extract_answer s "single")) = false) →
      extract_answer s "judgement" = "正确") := by
  constructor
  · rw [extract_answer_judgement_eq]
    exact judgementCanon_total _
  · intro h
    rw [extract_answer_judgement_eq]
    exact judgementCanon_default _ h

/-- Witness for C2 at the concrete ambiguous reply `"blah"`. -/
theorem judgement_extraction_total_and_default_witness :
    extract_answer "blah" "judgement" = "正确" :=
  (judgement_extraction_total_and_default "blah").2 (by decide)

/-- C9 (amended): separator normalization (`；`/`;` → `#`) is applied only in
the tag-delimited branch of `extract_answer`; label-delimited (`答案：`) and
bare replies pass the stripped text through with separators unchanged
(src/utils.py lines 285-349: the `replace` calls exist only in the
`<answer>` branch). -/
theorem separator_normalization_scope (body s t qt : String)
    (hqt : qt = "single" ∨ qt = "multiple") :
    (occursStr "</answer>" body = false →
      extract_answer ("<answer>" ++ body ++ "</answer>") qt
        = repSeps (pyStrip body)) ∧
    (firstAnswerTag s = none → occursStr "答案：" s = true →
      extract_answer s qt = pyStrip (afterLabel s)) ∧
    (firstAnswerTag t = none → occursStr "答案：" t = false →
      extract_answer t qt = pyStrip (removeThinking t)) := by
  have hqj : ¬ qt = "judgement" := by
    rcases hqt with rfl | rfl <;> decide
  refine ⟨?_, ?_, ?_⟩
  · intro h
    unfold extract_answer
    rw [firstAnswerTag_of_wrapped body h]
    dsimp only
    rw [if_neg hqj]
    by_cases hsep : (occursStr "#" (pyStrip body) || occursStr "；" (pyStrip body)
        || occursStr ";" (pyStrip body)) = true
    · rw [if_pos hsep]
    · rw [if_neg hsep]
      rw [Bool.or_eq_true, Bool.or_eq_true] at hsep
      push_neg at hsep
      rw [repSeps_eq_self _ (Bool.not_eq_true _ ▸ hsep.1.2)
        (Bool.not_eq_true _ ▸ hsep.2)]
  · intro h1 h2
    unfold extract_answer
    rw [h1]
    dsimp only
    rw [if_pos h2, if_neg hqj]
  · intro h1 h2
    unfold extract_answer
    rw [h1]
    dsimp only
    rw [if_neg (by rw [h2]; exact Bool.false_ne_true), if_neg hqj]

/-- C9 counterexample: a label-delimited Single reply containing `A；B`
extracts to `A；B`, not to the claimed `A#B`. -/
theorem separator_normalization_claim_cex :
    extract_answer "答案：A；B" "single" = "A；B" ∧
      ("A；B" : String) ≠ "A#B" := by
  constructor
  · decide
  · decide

/-- Witness for C9 at the three concrete reply forms. -/
theorem separator_normalization_scope_witness :
    extract_answer "<answer>A；B</answer>" "single" = "A#B" ∧
      extract_answer "答案：A;B" "single" = "A;B" ∧
      extract_answer "A；B" "single" = "A；B" := by
  have h := separator_normalization_scope "A；B" "答案：A;B" "A；B" "single"
    (Or.inl rfl)
  refine ⟨(h.1 (by decide)).trans (by decide),
    (h.2.1 (by decide) (by decide)).trans (by decide),
    (h.2.2 (by decide) (by decide)).trans (by decide)⟩

/-! utils_backup.py: multi-subquestion detection and segmentation. -/

/-- One attempt of the regex `\d+(punct)\s*[^\d]` at the head of `l`
(Python `\d` modelled as ASCII digits), with the engine's backtracking:
when the greedy `\s*` leaves a digit or the end, one space is given back to
satisfy `[^\d]`. Returns `(matched text, rest)`. -/
def matchNumDot (punct : Char) (l : List Char) : Option (List Char × List Char) :=
  let ds := l.takeWhile Char.isDigit
  let r1 := l.dropWhile Char.isDigit
  if ds.isEmpty then none
  else
    match r1 with
    | [] => none
    | c :: r2 =>
      if c = punct then
        let sp := r2.takeWhile isPySpace
        let r3 := r2.dropWhile isPySpace
        match r3 with
        | [] => if sp.isEmpty then none else some (ds ++ [punct] ++ sp, [])
        | d :: r4 =>
          if d.isDigit then
            if sp.isEmpty then none else some (ds ++ [punct] ++ sp, r3)
          else some (ds ++ [punct] ++ sp ++ [d], r4)
      else none

/-- One attempt of `[（(]\s*\d+\s*[）)]\s*[^\d]` at the head of `l`. -/
def matchParenNum (l : List Char) : Option (List Char × List Char) :=
  match l with
  | [] => none
  | c :: r1 =>
    if c = '（' ∨ c = '(' then
      let sp1 := r1.takeWhile isPySpace
      let r2 := r1.dropWhile isPySpace
      let ds := r2.takeWhile Char.isDigit
      let r3 := r2.dropWhile Char.isDigit
      if ds.isEmpty then none
      else
        let sp2 := r3.takeWhile isPySpace
        let r4 := r3.dropWhile isPySpace
        match r4 with
        | [] => none
        | d :: r5 =>
          if d = '）' ∨ d = ')' then
            let sp3 := r5.takeWhile isPySpace
            let r6 := r5.dropWhile isPySpace
            match r6 with
            | [] =>
              if sp3.isEmpty then none
              else some (c :: (sp1 ++ ds ++ sp2 ++ [d] ++ sp3), [])
            | e :: r7 =>
              if e.isDigit then
                if sp3.isEmpty then none
                else some (c :: (sp1 ++ ds ++ sp2 ++ [d] ++ sp3), r6)
              else some (c :: (sp1 ++ ds ++ sp2 ++ [d] ++ sp3 ++ [e]), r7)
          else none
    else none

/-- `re.findall`: scan left to right, collecting non-overlapping matches. -/
def findallFuel (m : List Char → Option (List Char × List Char)) :
    Nat → List Char → List (List Char)
  | 0, _ => []
  | _ + 1, [] => []
  | fuel + 1, c :: cs =>
    match m (c :: cs) with
    | some (txt, rest) => txt :: findallFuel m fuel rest
    | none => findallFuel m fuel cs

def findallP (m : List Char → Option (List Char × List Char))
    (l : List Char) : List (List Char) :=
  findallFuel m l.length l

/-- One attempt of `\d+\.` at the head. -/
def matchDigitsDot (l : List Char) : Option (List Char × List Char) :=
  let ds := l.takeWhile Char.isDigit
  let r1 := l.dropWhile Char.isDigit
  if ds.isEmpty then none
  else
    match r1 with
    | '.' :: r2 => some (ds ++ ['.'], r2)
    | _ => none

/-- `len(re.findall(r'\d+\.', question))`: the sub-question count used by
`_format_multi_subquestion_answer` (src/utils_backup.py line 336). -/
def countDD (s : String) : Nat := (findallP matchDigitsDot s.data).length

/-- `re.search(r'\d+(punct)\s*\S', m)` as a Boolean (used by the
valid-match filter of `_is_multi_subquestion`). -/
def hasNumPunctContent (punct : Char) : List Char → Bool
  | [] => false
  | c :: cs =>
    (let ds := (c :: cs).takeWhile Char.isDigit
     let r1 := (c :: cs).dropWhile Char.isDigit
     if ds.isEmpty then false
     else
       match r1 with
       | p :: r2 =>
         if p = punct then
           match r2.dropWhile isPySpace with
           | [] => false
           | _ :: _ => true
         else false
       | [] => false) ||
    hasNumPunctContent punct cs

/-- `re.search(r'[（(]\s*\d+\s*[）)]\s*\S', m)` as a Boolean. -/
def hasParenNumContent : List Char → Bool
  | [] => false
  | c :: cs =>
    ((c == '（' || c == '(') &&
      (let r2 := cs.dropWhile isPySpace
       let ds := r2.takeWhile Char.isDigit
       let r3 := r2.dropWhile Char.isDigit
       !ds.isEmpty &&
         (match r3.dropWhile isPySpace with
          | d :: r5 =>
            (d == '）' || d == ')') &&
              (match r5.dropWhile isPySpace with
               | [] => false
               | _ :: _ => true)
          | [] => false))) ||
    hasParenNumContent cs

/-- `re.sub(r'\d+\.\s*', '', question)`. -/
def subNumDotFuel : Nat → List Char → List Char
  | 0, l => l
  | _ + 1, [] => []
  | fuel + 1, c :: cs =>
    let ds := (c :: cs).takeWhile Char.isDigit
    let r1 := (c :: cs).dropWhile Char.isDigit
    if ds.isEmpty then c :: subNumDotFuel fuel cs
    else
      match r1 with
      | '.' :: r2 => subNumDotFuel fuel (r2.dropWhile isPySpace)
      | _ => c :: subNumDotFuel fuel cs

def removeNumDots (s : String) : String := ⟨subNumDotFuel s.data.length s.data⟩

/-- `_is_multi_subquestion` of src/utils_backup.py (lines 214-251). -/
def is_multi_subquestion (question : String) : Bool :=
  if question = "" ∨ pyStrip question = "" then false
  else
    let ms := findallP (matchNumDot '.') question.data
      ++ findallP (matchNumDot ')') question.data
      ++ findallP matchParenNum question.data
    let valid := ms.filter (fun m =>
      hasNumPunctContent '.' m || hasNumPunctContent ')' m || hasParenNumContent m)
    if 2 ≤ valid.length then true
    else if 2 ≤ countDD question ∧ pyStrip (removeNumDots question) ≠ "" then true
    else false

/-- One discourse-marker pattern with trailing `\s*`
(`re.search(r'^LIT[：:]?\s*', answer)`); returns the text after the match. -/
def matchHeadA (lit : List Char) (l : List Char) : Option (List Char) :=
  if lit.isPrefixOf l then
    let r := l.drop lit.length
    let r := if r.head? = some '：' ∨ r.head? = some ':' then r.tail else r
    some (r.dropWhile isPySpace)
  else none

/-- One discourse-marker pattern with `\s+(?!答案)`: at least one space is
required, and (after the engine backtracks over the greedy `\s+`) the match
fails only when there is exactly one space followed by `答案`. Returns the
text after all the spaces (the outer `.strip()` removes any space the
lookahead forced the engine to give back). -/
def matchHeadB (lit : List Char) (l : List Char) : Option (List Char) :=
  if lit.isPrefixOf l then
    let r := l.drop lit.length
    let r := if r.head? = some '：' ∨ r.head? = some ':' then r.tail else r
    let sp := r.takeWhile isPySpace
    let rest := r.dropWhile isPySpace
    if sp.isEmpty then none
    else if "答案".data.isPrefixOf rest ∧ sp.length = 1 then none
    else some rest
  else none

/-- `_clean_answer_prefix` of src/utils_backup.py (lines 480-498): the six
patterns are tried in order; on a match the remainder is stripped. -/
def cleanAnswerHead (answer : String) : String :=
  match (matchHeadA "经过分析，我认为答案是".data answer.data <|>
      matchHeadA "我认为答案是".data answer.data <|>
      matchHeadA "所以答案是".data answer.data <|>
      matchHeadA "最终答案是".data answer.data <|>
      matchHeadB "答案是".data answer.data <|>
      matchHeadB "答案".data answer.data) with
  | some r => ⟨stripL r⟩
  | none => answer

/-- `[p.strip() for p in xs if p.strip()]`. -/
def strippedParts (ls : List (List Char)) : List String :=
  ((ls.map stripL).filter (fun p => !p.isEmpty)).map (fun p => (⟨p⟩ : String))

def splitHashParts (a : List Char) : List String :=
  strippedParts (splitOnCharL '#' a)

def splitFwParts (a : List Char) : List String :=
  strippedParts (splitOnCharL '；' a)

/-- The character class `[一-龯a-zA-Z]`. -/
def isCjkOrLatin (c : Char) : Bool :=
  (0x4E00 ≤ c.toNat ∧ c.toNat ≤ 0x9FAF) ∨
    ('a' ≤ c ∧ c ≤ 'z') ∨ ('A' ≤ c ∧ c ≤ 'Z')

/-- `re.search(r'。[一-龯a-zA-Z]', l)` as a Boolean. -/
def hasDotBoundary : List Char → Bool
  | [] => false
  | [_] => false
  | c :: d :: cs => (c == '。' && isCjkOrLatin d) || hasDotBoundary (d :: cs)

/-- `re.split(r'。(?=[一-龯a-zA-Z])', l)`: split at each `。` that is
followed by a CJK/Latin letter; the `。` is consumed, the letter kept. -/
def splitDotL : List Char → List (List Char)
  | [] => [[]]
  | [c] => [[c]]
  | c :: d :: cs =>
    if c == '。' && isCjkOrLatin d then [] :: splitDotL (d :: cs)
    else
      match splitDotL (d :: cs) with
      | [] => [[c]]
      | h :: t => (c :: h) :: t

def splitDotParts (a : List Char) : List String :=
  strippedParts (splitDotL a)

def joinWithSep (sep : String) : List String → String
  | [] => ""
  | [x] => x
  | x :: xs => x ++ sep ++ joinWithSep sep xs

/-- The per-fragment step of `_split_mixed_separators` (src/utils_backup.py
lines 458-475); `part` is already stripped and nonempty. -/
def splitMixedSub (part : List Char) : List String :=
  if '；' ∈ part then strippedParts (splitOnCharL '；' part)
  else if ';' ∈ part then strippedParts (splitOnCharL ';' part)
  else if '。' ∈ part ∧ hasDotBoundary part = true then
    ((splitDotL part).filter (fun p => !(stripL p).isEmpty)).map (fun p =>
      if p.getLast? = some '。' then (⟨stripL p⟩ : String)
      else (⟨stripL p ++ ['。']⟩ : String))
  else [⟨part⟩]

/-- `_split_mixed_separators` (src/utils_backup.py lines 447-477). -/
def split_mixed_separators (answer : List Char) : List String :=
  let primary := if '#' ∈ answer then splitOnCharL '#' answer else [answer]
  ((primary.map stripL).filter (fun p => !p.isEmpty)).flatMap splitMixedSub

/-- `_merge_excess_parts` (src/utils_backup.py lines 501-517).  (For
`question_count = 0` Python's negative slice would leave the list unchanged;
the embedded form differs only in that unreachable intermediate value, and
the caller's `== question_count` test gives the same outcome.) -/
def merge_excess_parts (parts : List String) (qc : Nat) : List String :=
  if parts.length ≤ qc then parts
  else parts.take (qc - 1) ++ [joinWithSep "#" (parts.drop (qc - 1))]

/-- Python `str.split()` (whitespace split, no empty parts). -/
def pySplitWsFuel : Nat → List Char → List (List Char)
  | 0, _ => []
  | _ + 1, [] => []
  | fuel + 1, c :: cs =>
    if isPySpace c then pySplitWsFuel fuel cs
    else
      (c :: cs).takeWhile (fun x => !isPySpace x)
        :: pySplitWsFuel fuel ((c :: cs).dropWhile (fun x => !isPySpace x))

def pySplitWs (s : String) : List String :=
  (pySplitWsFuel s.data.length s.data).map (fun p => (⟨p⟩ : String))

/-- The strategy-5 even distribution of words into `qc` groups
(src/utils_backup.py lines 427-440).  Python raises `ZeroDivisionError`
when `question_count = 0`; that argument is unreachable from
`_format_multi_subquestion_answer` under the claims' `N ≥ 2` scope. -/
def wsDistribute (words : List String) (qc : Nat) : List String :=
  let avg := words.length / qc
  (List.range (qc - 1)).map (fun i => joinWithSep " " ((words.drop (i * avg)).take avg))
    ++ [joinWithSep " " (words.drop ((qc - 1) * avg))]

/-- `_split_answer_smart` (src/utils_backup.py lines 381-444): prefix
cleaning, then five splitting strategies, first success (`== qc`) wins;
on total failure the (cleaned) answer is returned as a single part. -/
def split_answer_smart (answer0 : String) (qc : Nat) : List String :=
  let answer := cleanAnswerHead answer0
  let a := answer.data
  if '#' ∈ a ∧ (splitHashParts a).length = qc then splitHashParts a
  else if '；' ∈ a ∧ (splitFwParts a).length = qc then splitFwParts a
  else if ('。' ∈ a ∧ hasDotBoundary a = true) ∧ (splitDotParts a).length = qc then
    splitDotParts a
  else if ('#' ∈ a ∨ '；' ∈ a ∨ ';' ∈ a) ∧ qc ≤ (split_mixed_separators a).length
      ∧ (merge_excess_parts (split_mixed_separators a) qc).length = qc then
    merge_excess_parts (split_mixed_separators a) qc
  else if ' ' ∈ a ∧ qc ≤ (pySplitWs answer).length then
    wsDistribute (pySplitWs answer) qc
  else [answer]

/-- `_is_already_well_formatted` (src/utils_backup.py lines 365-378). -/
def alreadyWellFormatted (answer : String) (qc : Nat) : Bool :=
  let lines := splitOnCharL '\n' answer.data
  if lines.length = qc then
    lines.enum.all (fun p =>
      ((Nat.repr (p.1 + 1)).data ++ ['.']).isPrefixOf (stripL p.2))
  else false

/-- The formatting loop of `_format_multi_subquestion_answer`
(src/utils_backup.py lines 349-356): `"{i}.{part}"` lines joined by
newlines, keeping a trailing `。`/`；` unstripped. -/
def renderNumbered (parts : List String) : String :=
  joinWithSep "\n" (parts.enum.map (fun q =>
    if q.2.data.getLast? = some '。' ∨ q.2.data.getLast? = some '；' then
      Nat.repr (q.1 + 1) ++ "." ++ q.2
    else Nat.repr (q.1 + 1) ++ "." ++ pyStrip q.2))

/-- `_format_multi_subquestion_answer` (src/utils_backup.py lines 328-362). -/
def format_multi_subquestion_answer (answer question : String) : String :=
  let qc := countDD question
  if alreadyWellFormatted answer qc = true then answer
  else
    let parts := split_answer_smart answer qc
    if parts.length = qc then renderNumbered parts
    else answer

/-- Generic paired-tag unwrapping `re.sub(r"<[^>]+>(.*?)</[^>]+>", r"\1", s)`
used by the bare branch of the backup `extract_answer`: the opening-tag
attempt at the head, returning the rest after `<xxx>`. -/
def matchOpenTag (l : List Char) : Option (List Char) :=
  match l with
  | '<' :: r1 =>
    let nm := r1.takeWhile (fun c => c != '>')
    let r2 := r1.dropWhile (fun c => c != '>')
    if nm.isEmpty then none
    else
      match r2 with
      | '>' :: r3 => some r3
      | _ => none
  | _ => none

/-- The closing-tag attempt `</[^>]+>` at the head. -/
def matchCloseTag (l : List Char) : Option (List Char) :=
  match l with
  | '<' :: '/' :: r1 =>
    let nm := r1.takeWhile (fun c => c != '>')
    let r2 := r1.dropWhile (fun c => c != '>')
    if nm.isEmpty then none
    else
      match r2 with
      | '>' :: r3 => some r3
      | _ => none
  | _ => none

/-- Earliest closing tag (lazy `.*?`): `(content before, rest after)`. -/
def findCloseFuel : Nat → List Char → Option (List Char × List Char)
  | 0, _ => none
  | _ + 1, [] => none
  | fuel + 1, c :: cs =>
    match matchCloseTag (c :: cs) with
    | some rest => some ([], rest)
    | none =>
      match findCloseFuel fuel cs with
      | none => none
      | some (b, r) => some (c :: b, r)

def stripTagsFuel : Nat → List Char → List Char
  | 0, l => l
  | _ + 1, [] => []
  | fuel + 1, c :: cs =>
    match matchOpenTag (c :: cs) with
    | some afterOpen =>
      match findCloseFuel (afterOpen.length + 1) afterOpen with
      | some (content, rest) => content ++ stripTagsFuel fuel rest
      | none => c :: stripTagsFuel fuel cs
    | none => c :: stripTagsFuel fuel cs

def stripAllTags (s : String) : String := ⟨stripTagsFuel s.data.length s.data⟩

/-- `extract_answer` of src/utils_backup.py (lines 254-307): like the live
one but with the multi-subquestion Completion segmenter, a third `question`
argument, and generic tag unwrapping in the bare branch. -/
def extract_answer_bk (ai_response question_type question : String) : String :=
  match firstAnswerTag ai_response with
  | some content =>
    let answer := pyStrip content
    if question_type = "judgement" then judgementCanon answer
    else if question_type = "completion" ∧ is_multi_subquestion question = true then
      format_multi_subquestion_answer answer question
    else repSeps answer
  | none =>
    if occursStr "答案：" ai_response then
      let answer := pyStrip (afterLabel ai_response)
      if question_type = "judgement" then judgementCanon answer
      else if question_type = "completion" ∧ is_multi_subquestion question = true then
        format_multi_subquestion_answer answer question
      else answer
    else
      let cleaned := pyStrip (stripAllTags (pyStrip (removeThinking ai_response)))
      if question_type = "judgement" then judgementCanon cleaned
      else if question_type = "completion" ∧ is_multi_subquestion question = true then
        format_multi_subquestion_answer cleaned question
      else cleaned

/-- C3: for a multi-subquestion Completion question with `N ≥ 2` counted
sub-questions, the segmenter's output is either the original answer
unchanged or exactly `N` parts rendered as `"{i}.{part}"` lines joined by
newlines — never any other part count, and failure never yields a partially
split or prefix-stripped result. -/
theorem segmenter_count_invariant (answer question : String) (N : Nat)
    (hN : countDD question = N) (h2 : 2 ≤ N)
    (hm : is_multi_subquestion question = true) :
    format_multi_subquestion_answer answer question = answer ∨
      ∃ parts : List String, parts.length = N ∧
        format_multi_subquestion_answer answer question = renderNumbered parts := by
  unfold format_multi_subquestion_answer
  rw [hN]
  by_cases hw : alreadyWellFormatted answer N = true
  · rw [if_pos hw]
    exact Or.inl rfl
  · rw [if_neg hw]
    dsimp only
    by_cases hl : (split_answer_smart answer N).length = N
    · rw [if_pos hl]
      exact Or.inr ⟨_, hl, rfl⟩
    · rw [if_neg hl]
      exact Or.inl rfl

/-- Witness for C3: a two-sub-question text with an unsplittable answer
takes the identity fallback. -/
theorem segmenter_count_invariant_witness :
    countDD "1. 甲 2. 乙" = 2 ∧ is_multi_subquestion "1. 甲 2. 乙" = true ∧
      (format_multi_subquestion_answer "xyz" "1. 甲 2. 乙" = "xyz" ∨
        ∃ parts : List String, parts.length = 2 ∧
          format_multi_subquestion_answer "xyz" "1. 甲 2. 乙"
            = renderNumbered parts) :=
  ⟨by decide, by decide,
    segmenter_count_invariant "xyz" "1. 甲 2. 乙" 2 (by decide) (by decide)
      (by decide)⟩

theorem splitHashParts_single_le_one (a : List Char) (h : '#' ∉ a) :
    (splitHashParts a).length ≤ 1 := by
  unfold splitHashParts strippedParts
  rw [splitOnCharL_not_mem '#' a h]
  simpa using List.length_filter_le _ _

/-- C1 (amended): for a multi-subquestion Completion question whose counted
sub-question number is `N ≥ 2` and a tag-delimited reply whose content
splits on `#` into exactly `N` nonempty stripped parts, the backup
extraction renders the parts as `"{i}.{part}"` lines — provided the content
is not already formatted as `N` numbered lines (which is returned verbatim)
and no discourse prefix is stripped from it. -/
theorem multi_completion_extraction (body question : String) (N : Nat)
    (parts : List String)
    (hm : is_multi_subquestion question = true)
    (hN : countDD question = N) (h2 : 2 ≤ N)
    (hbody : occursStr "</answer>" body = false)
    (hwf : alreadyWellFormatted (pyStrip body) N = false)
    (hcl : cleanAnswerHead (pyStrip body) = pyStrip body)
    (hp : splitHashParts (pyStrip body).data = parts)
    (hlen : parts.length = N) :
    extract_answer_bk ("<answer>" ++ body ++ "</answer>") "completion" question
      = renderNumbered parts := by
  unfold extract_answer_bk
  rw [firstAnswerTag_of_wrapped body hbody]
  dsimp only
  rw [if_neg (by decide), if_pos ⟨rfl, hm⟩]
  unfold format_multi_subquestion_answer
  rw [hN, if_neg (by rw [hwf]; exact Bool.false_ne_true)]
  dsimp only
  have hhash : '#' ∈ (pyStrip body).data := by
    by_contra hno
    have hle := splitHashParts_single_le_one _ hno
    rw [hp, hlen] at hle
    omega
  have hsplit : split_answer_smart (pyStrip body) N = parts := by
    unfold split_answer_smart
    dsimp only
    rw [hcl]
    rw [if_pos ⟨hhash, by rw [hp, hlen]⟩, hp]
  rw [hsplit, if_pos hlen]

/-- C1 counterexample: the tag content `我认为答案是:ans1#ans2` has exactly
two nonempty `#`-separated parts, but the discourse prefix is stripped, so
the output is not those parts rendered. -/
theorem multi_completion_extraction_claim_cex :
    extract_answer_bk "<answer>我认为答案是:ans1#ans2</answer>" "completion"
        "1. 甲 2. 乙" = "1.ans1\n2.ans2" ∧
      splitHashParts (pyStrip "我认为答案是:ans1#ans2").data
        = ["我认为答案是:ans1", "ans2"] ∧
      ("1.ans1\n2.ans2" : String) ≠ "1.我认为答案是:ans1\n2.ans2" := by
  refine ⟨by decide, by decide, by decide⟩

/-- Witness for C1 realizing the spec's Scenario B. -/
theorem multi_completion_extraction_witness :
    extract_answer_bk "<answer>ans1#ans2#ans3</answer>" "completion"
      "1. 甲 2. 乙 3. 丙" = "1.ans1\n2.ans2\n3.ans3" :=
  (multi_completion_extraction "ans1#ans2#ans3" "1. 甲 2. 乙 3. 丙" 3
    ["ans1", "ans2", "ans3"] (by decide) (by decide) (by decide) (by decide)
    (by decide) (by decide) (by decide) (by decide)).trans (by decide)

/-! utils.py: normalization and the external-answer validator stack. -/

/-- Collapse every whitespace run to a single `' '`
(`re.sub(r"\s+", " ", text)`). -/
def collapseWs : List Char → List Char
  | [] => []
  | [c] => [if isPySpace c then ' ' else c]
  | c :: d :: cs =>
    if isPySpace c then
      if isPySpace d then collapseWs (d :: cs)
      else ' ' :: collapseWs (d :: cs)
    else c :: collapseWs (d :: cs)

/-- `unicodedata.normalize("NFKC", ·)` modelled character-wise on its
effect for the engine's inputs: fullwidth forms (U+FF01-U+FF5E) fold to
ASCII, the ideographic space folds to `' '`, everything else (ASCII, CJK
ideographs, `√ × 。 、`) is NFKC-invariant. -/
def nfkcChar (c : Char) : Char :=
  if 0xFF01 ≤ c.toNat ∧ c.toNat ≤ 0xFF5E then Char.ofNat (c.toNat - 0xFEE0)
  else if c.toNat = 0x3000 then ' ' else c

/-- `normalize_text` of src/utils.py (lines 180-195). -/
def normalizeText (s : String) : String :=
  if s = "" then "" else ⟨stripL (collapseWs (s.data.map nfkcChar))⟩

/-- The fixed sentinel list of `_is_not_found_answer`
(src/utils.py lines 473-501). -/
def notFoundList : List String :=
  ["非常抱歉", "题目搜索不到", "未找到", "没有找到", "搜索不到", "抱歉",
   "sorry", "not found", "no answer", "无法找到", "查询失败", "暂无答案",
   "暂未收录", "暂未收录该题目", "暂未收录该题目答案", "题库中未找到",
   "数据库中未找到", "未收录此题", "此题暂未收录", "题目暂未收录",
   "答案暂未收录", "暂无此题答案", "题库暂未收录", "未收录",
   "未收录此题目", "题目未收录", "答案未收录"]

/-- `_is_not_found_answer` (src/utils.py lines 456-503). -/
def is_not_found_answer (answer : String) : Bool :=
  if answer = "" then true
  else
    let al := pyStrip (lowerStr answer)
    notFoundList.any (fun p => occursStr p al)

/-- The valid-answer list of `_validate_judgement_answer`
(src/utils.py lines 508-511). -/
def validJudList : List String :=
  ["对", "错", "正确", "错误", "true", "false", "√", "×",
   "是", "否", "yes", "no", "对的", "错的", "正确的", "错误的"]

/-- `re.sub(r'^(我觉得|我认为|应该是|答案是|结果是)[\s]*', '', ·)`:
at most one leading discourse marker (leftmost alternative) plus the
following whitespace run is removed. -/
def stripModifier (l : List Char) : List Char :=
  match (["我觉得", "我认为", "应该是", "答案是", "结果是"] : List String).find?
      (fun p => p.data.isPrefixOf l) with
  | some p => (l.drop p.data.length).dropWhile isPySpace
  | none => l

/-- `_validate_judgement_answer` (src/utils.py lines 506-531). -/
def validate_judgement_answer (answer : String) : Bool :=
  let al := pyStrip (lowerStr answer)
  let ac := stripModifier al.data
  if validJudList.any (fun v => infixOfL v.data ac || infixOfL ac v.data) then true
  else if (["正确", "对", "是", "true", "yes", "√"] : List String).any
      (fun v => v.data.isPrefixOf ac) then true
  else if (["错误", "错", "否", "false", "no", "×"] : List String).any
      (fun v => v.data.isPrefixOf ac) then true
  else false

/-- The keyword list of `_is_judgement_like_answer`
(src/utils.py lines 859-862). -/
def judgementKeywords : List String :=
  ["对", "错", "正确", "错误", "true", "false", "√", "×",
   "是", "否", "yes", "no", "对的", "错的"]

/-- `_is_judgement_like_answer` (src/utils.py lines 857-865). -/
def is_judgement_like_answer (answer : String) : Bool :=
  let al := pyStrip (lowerStr answer)
  judgementKeywords.any (fun k => occursStr k al)

/-- First-seen-order deduplication (`list(dict.fromkeys(...))`). -/
def dedupKeepFirstAux (seen : List String) : List String → List String
  | [] => []
  | x :: xs =>
    if x ∈ seen then dedupKeepFirstAux seen xs
    else x :: dedupKeepFirstAux (x :: seen) xs

def dedupKeepFirst (l : List String) : List String := dedupKeepFirstAux [] l

/-- The option-label punctuation class `[).、．。:：\-]`. -/
def punctClass1 : List Char := [')', '.', '、', '．', '。', ':', '：', '-']

/-- The suffixes of `l` obtained by consuming `k` leading whitespace
characters, for `k` from the maximum down to `0` — the order in which a
backtracking greedy `\s*` offers them. -/
def spaceSplits (l : List Char) : List (List Char) :=
  let sp := (l.takeWhile isPySpace).length
  (List.range (sp + 1)).map (fun j => l.drop (sp - j))

/-- A line-anchored option-label pattern
`^\(?([A-Z])\)?\s*[punct]?\s*(.+)$` (paren pieces only when `allowParen`,
punctuation mandatory when `punctRequired`), with the regex engine's
greedy-then-backtrack order; returns the label and `(.+)`'s text. -/
def parseLineGen (allowParen : Bool) (punctCls : List Char)
    (punctRequired : Bool) (line : List Char) : Option (Char × List Char) :=
  let starts : List (List Char) :=
    if allowParen then
      match line with
      | '(' :: r => [r, line]
      | _ => [line]
    else [line]
  starts.findSome? (fun lp =>
    match lp with
    | u :: r1 =>
      if 'A' ≤ u ∧ u ≤ 'Z' then
        let closes : List (List Char) :=
          if allowParen then
            match r1 with
            | ')' :: r => [r, r1]
            | _ => [r1]
          else [r1]
        closes.findSome? (fun lc =>
          (spaceSplits lc).findSome? (fun ls =>
            let puncts : List (List Char) :=
              (match ls with
               | p :: r => if p ∈ punctCls then [r] else []
               | [] => []) ++ (if punctRequired then [] else [ls])
            puncts.findSome? (fun lq =>
              (spaceSplits lq).findSome? (fun lb =>
                match lb with
                | [] => none
                | _ => some (u, lb)))))
      else none
    | [] => none)

/-- One line through the three patterns of `_parse_options_smart`
(src/utils.py lines 591-607): first pattern whose match has a nonempty
normalized body wins. -/
def parseOptionLine (line : List Char) : Option (Char × String) :=
  ((parseLineGen false punctClass1 false line).bind (fun q =>
      let t := normalizeText ⟨q.2⟩
      if t ≠ "" then some (q.1, t) else none)) <|>
    ((parseLineGen true [] false line).bind (fun q =>
      let t := normalizeText ⟨q.2⟩
      if t ≠ "" then some (q.1, t) else none)) <|>
    ((parseLineGen false ['．', '。'] true line).bind (fun q =>
      let t := normalizeText ⟨q.2⟩
      if t ≠ "" then some (q.1, t) else none))

def hexVal (c : Char) : Option Nat :=
  if '0' ≤ c ∧ c ≤ '9' then some (c.toNat - 48)
  else if 'A' ≤ c ∧ c ≤ 'F' then some (c.toNat - 55)
  else if 'a' ≤ c ∧ c ≤ 'f' then some (c.toNat - 87)
  else none

/-- A maximal run of `%XX` escapes, as bytes. -/
def pctBytes : List Char → List Nat × List Char
  | '%' :: a :: b :: r =>
    match hexVal a, hexVal b with
    | some x, some y =>
      match pctBytes r with
      | (bs, rest) => ((16 * x + y) :: bs, rest)
    | _, _ => ([], '%' :: a :: b :: r)
  | l => ([], l)

def mkScalar (n : Nat) : Char :=
  if n < 0xD800 ∨ (0xE000 ≤ n ∧ n < 0x110000) then Char.ofNat n else '�'

/-- UTF-8 decoding of a byte run, invalid sequences becoming U+FFFD
(Python `urllib.parse.unquote`'s `errors='replace'`). -/
def utf8Dec : List Nat → List Char
  | [] => []
  | b :: bs =>
    if b < 0x80 then Char.ofNat b :: utf8Dec bs
    else if 0xC0 ≤ b ∧ b ≤ 0xDF then
      match bs with
      | b2 :: bs2 =>
        if 0x80 ≤ b2 ∧ b2 ≤ 0xBF then
          mkScalar ((b - 0xC0) * 64 + (b2 - 0x80)) :: utf8Dec bs2
        else '�' :: utf8Dec (b2 :: bs2)
      | [] => ['�']
    else if 0xE0 ≤ b ∧ b ≤ 0xEF then
      match bs with
      | b2 :: b3 :: bs3 =>
        if (0x80 ≤ b2 ∧ b2 ≤ 0xBF) ∧ (0x80 ≤ b3 ∧ b3 ≤ 0xBF) then
          mkScalar ((b - 0xE0) * 4096 + (b2 - 0x80) * 64 + (b3 - 0x80))
            :: utf8Dec bs3
        else '�' :: utf8Dec (b2 :: b3 :: bs3)
      | [b2] => if 0x80 ≤ b2 ∧ b2 ≤ 0xBF then ['�'] else ['�', '�']
      | [] => ['�']
    else if 0xF0 ≤ b ∧ b ≤ 0xF7 then
      match bs with
      | b2 :: b3 :: b4 :: bs4 =>
        if (0x80 ≤ b2 ∧ b2 ≤ 0xBF) ∧ (0x80 ≤ b3 ∧ b3 ≤ 0xBF)
            ∧ (0x80 ≤ b4 ∧ b4 ≤ 0xBF) then
          mkScalar ((b - 0xF0) * 262144 + (b2 - 0x80) * 4096
              + (b3 - 0x80) * 64 + (b4 - 0x80)) :: utf8Dec bs4
        else '�' :: utf8Dec (b2 :: b3 :: b4 :: bs4)
      | _ => ['�']
    else '�' :: utf8Dec bs

/-- `urllib.parse.unquote` modelled as percent-run UTF-8 decoding. -/
def urlUnquoteFuel : Nat → List Char → List Char
  | 0, l => l
  | _ + 1, [] => []
  | fuel + 1, c :: cs =>
    if c = '%' then
      match pctBytes (c :: cs) with
      | ([], _) => c :: urlUnquoteFuel fuel cs
      | (bs, rest) => utf8Dec bs ++ urlUnquoteFuel fuel rest
    else c :: urlUnquoteFuel fuel cs

def urlUnquote (s : String) : String := ⟨urlUnquoteFuel s.data.length s.data⟩

/-- The inline-option punctuation class `[).、．。:：]` (no dash). -/
def punctClass2 : List Char := [')', '.', '、', '．', '。', ':', '：']

/-- The lookahead `(?=\s\(?[A-Z]\)?\s*[).、．。:：]|$)` of the inline
option pattern, at the remaining suffix. -/
def lookNext (l : List Char) : Bool :=
  match l with
  | [] => true
  | ['\n'] => true
  | c :: r =>
    isPySpace c &&
      (let lab : Option (List Char) :=
        match r with
        | '(' :: u :: rr => if 'A' ≤ u ∧ u ≤ 'Z' then some rr else none
        | u :: rr => if 'A' ≤ u ∧ u ≤ 'Z' then some rr else none
        | [] => none
       match lab with
       | none => false
       | some rr =>
         let tryTail := fun (x : List Char) =>
           match x.dropWhile isPySpace with
           | p :: _ => decide (p ∈ punctClass2)
           | [] => false
         match rr with
         | ')' :: rr2 => tryTail rr2 || tryTail rr
         | _ => tryTail rr)

/-- Lazy body extension of `([^A-Z].*?)`: `acc` (reversed) is nonempty;
stop at the first position where the lookahead holds; `.` cannot cross a
newline. Returns `(body, rest)`. -/
def bodyScanFuel : Nat → List Char → List Char → Option (List Char × List Char)
  | 0, _, _ => none
  | fuel + 1, acc, rem =>
    if lookNext rem then some (acc.reverse, rem)
    else
      match rem with
      | [] => none
      | c :: rest => if c = '\n' then none else bodyScanFuel fuel (c :: acc) rest

/-- The core of the inline option pattern
`\(?([A-Z])\)?\s*[).、．。:：]?\s*([^A-Z].*?)(?=...)` after the prefix,
with the engine's backtracking order. -/
def inlineCore (l2 : List Char) : Option (Char × List Char × List Char) :=
  let afterParen : List (List Char) :=
    match l2 with
    | '(' :: r => [r, l2]
    | _ => [l2]
  afterParen.findSome? (fun lp =>
    match lp with
    | u :: r1 =>
      if 'A' ≤ u ∧ u ≤ 'Z' then
        let afterClose : List (List Char) :=
          match r1 with
          | ')' :: r => [r, r1]
          | _ => [r1]
        afterClose.findSome? (fun lc =>
          (spaceSplits lc).findSome? (fun ls =>
            let afterPunct : List (List Char) :=
              match ls with
              | p :: r => if p ∈ punctClass2 then [r, ls] else [ls]
              | [] => [ls]
            afterPunct.findSome? (fun lq =>
              (spaceSplits lq).findSome? (fun lb =>
                match lb with
                | b0 :: rest =>
                  if ¬ ('A' ≤ b0 ∧ b0 ≤ 'Z') then
                    (bodyScanFuel (rest.length + 1) [b0] rest).map
                      (fun q => (u, q.1, q.2))
                  else none
                | [] => none))))
      else none
    | [] => none)

def isAsciiAlnum (c : Char) : Bool :=
  decide (('A' ≤ c ∧ c ≤ 'Z') ∨ ('a' ≤ c ∧ c ≤ 'z') ∨ ('0' ≤ c ∧ c ≤ '9'))

/-- `finditer` of the inline pattern `(?:^|[^A-Za-z0-9])\(?([A-Z])...`:
leftmost, non-overlapping; at the string head the zero-width `^`
alternative is preferred. -/
def inlineScanFuel : Nat → Bool → List Char → List (Char × List Char)
  | 0, _, _ => []
  | fuel + 1, atStart, l =>
    let att : Option (Char × List Char × List Char) :=
      (if atStart then inlineCore l else none) <|>
        (match l with
         | c :: r => if !isAsciiAlnum c then inlineCore r else none
         | [] => none)
    match att with
    | some (lab, body, rest) => (lab, body) :: inlineScanFuel fuel false rest
    | none =>
      match l with
      | [] => []
      | _ :: r => inlineScanFuel fuel false r

def inlineScan (l : List Char) : List (Char × List Char) :=
  inlineScanFuel (l.length + 1) true l

def replParen (c : Char) : Char :=
  if c = '（' then '(' else if c = '）' then ')' else c

def cjkOrAlnum (c : Char) : Bool :=
  decide ((0x4E00 ≤ c.toNat ∧ c.toNat ≤ 0x9FA5) ∨ ('A' ≤ c ∧ c ≤ 'Z')
    ∨ ('a' ≤ c ∧ c ≤ 'z') ∨ ('0' ≤ c ∧ c ≤ '9'))

/-- `re.search(r'[。.?？)]\s+([一-龥A-Za-z0-9].+)', text)`, then
the candidate tail after the separator, stripped: scan for the first
position matching punct + spaces(≥1) + class-char + at least one more
character. -/
def spaceTailFuel : Nat → List Char → Option (List Char)
  | 0, _ => none
  | _ + 1, [] => none
  | fuel + 1, c :: cs =>
    if c = '。' ∨ c = '.' ∨ c = '?' ∨ c = '？' ∨ c = ')' then
      (let sp := cs.takeWhile isPySpace
       let rest := cs.dropWhile isPySpace
       match rest with
       | d :: _ :: _ =>
         if !sp.isEmpty && cjkOrAlnum d then some (stripL rest)
         else spaceTailFuel fuel cs
       | _ => spaceTailFuel fuel cs)
    else spaceTailFuel fuel cs

/-- Python `candidate.split(' ')` keeping only nonempty segments. -/
def splitSpaceSegs (l : List Char) : List (List Char) :=
  (splitOnCharL ' ' l).filter (fun p => !p.isEmpty)

/-- The uniform-length test `all(abs(len(s) - avg) <= 10)` with
`avg = sum/len` (exact rational comparison; the float computation in the
source cannot differ for segment counts ≤ 12 and lengths ≤ 16). -/
def segsUniform (segs : List (List Char)) : Bool :=
  let n := segs.length
  let s := (segs.map List.length).sum
  segs.all (fun x => decide ((x.length * n : Int) - s ≤ 10 * n ∧
    (s : Int) - x.length * n ≤ 10 * n))

/-- `extract_options_from_question` of src/utils.py (lines 207-282).
(The `lru_cache` memoization is semantically transparent and not
modelled.) -/
def extract_options_from_question (question_text : String) : List String :=
  if question_text = "" then []
  else
    let text : List Char := (normalizeText question_text).data.map replParen
    let cands := (inlineScan text).filterMap (fun q =>
      let body := normalizeText ⟨q.2⟩
      if 0 < body.data.length ∧ body.data.length ≤ 120 then some body else none)
    if 2 ≤ cands.length then dedupKeepFirst cands
    else
      let lines := ((splitOnCharL '\n' text).map stripL).filter
        (fun p => !p.isEmpty)
      let extracted := lines.filterMap (fun line =>
        (parseLineGen true punctClass1 false line).bind (fun q =>
          let body := normalizeText ⟨q.2⟩
          if 0 < body.data.length ∧ body.data.length ≤ 120 then some body
          else none))
      if 2 ≤ extracted.length then dedupKeepFirst extracted
      else
        if 20 < text.length ∧ text.length < 400 ∧ ' ' ∈ text ∧ '\n' ∉ text then
          let segs :=
            match spaceTailFuel text.length text with
            | some tail => splitSpaceSegs tail
            | none => splitSpaceSegs text
          if (3 ≤ segs.length ∧ segs.length ≤ 12)
              ∧ segs.all (fun x => decide (1 ≤ x.length ∧ x.length ≤ 16))
              ∧ segsUniform segs then
            segs.map (fun p => (⟨p⟩ : String))
          else []
        else []

/-- `_parse_options_smart` (src/utils.py lines 562-624): the label map is
keyed by letter with later lines overwriting (most-recent-first assoc
list), texts are deduplicated keeping first occurrence. -/
def parse_options_smart (options question : String) :
    List (Char × String) × List String :=
  let optionLines : List (List Char) :=
    if occursStr "\n" options then
      ((splitOnCharL '\n' options.data).map stripL).filter (fun p => !p.isEmpty)
    else
      let dec := urlUnquote options
      if occursStr "\n" dec then
        ((splitOnCharL '\n' dec.data).map stripL).filter (fun p => !p.isEmpty)
      else if ' ' ∈ options.data ∧ 2 ≤ (pySplitWs options).length then
        (pySplitWs options).map (fun s => s.data)
      else
        match extract_options_from_question question with
        | [] => []
        | auto => auto.enum.map (fun q =>
            Char.ofNat (65 + q.1) :: '.' :: ' ' :: q.2.data)
  let acc := optionLines.foldl (fun acc line =>
    match parseOptionLine line with
    | some (lab, txt) => ((lab, txt) :: acc.1, acc.2 ++ [txt])
    | none =>
      let t := normalizeText ⟨line⟩
      if t ≠ "" then (acc.1, acc.2 ++ [t]) else acc)
    (([] : List (Char × String)), ([] : List String))
  (acc.1, dedupKeepFirst acc.2)

def lookupLabel (lm : List (Char × String)) (c : Char) : Option String :=
  (lm.find? (fun q => q.1 == c)).map (fun q => q.2)

/-- The separator list of `_validate_answer_relaxed`
(src/utils.py line 839). -/
def relaxSeps : List Char := ['#', '，', ',', '；', ';', '/', '\\', '|', ' ']

/-- The split class `[#,，,；;/\\|\s]`. -/
def relaxSplitClass (c : Char) : Bool :=
  c == '#' || c == ',' || c == '，' || c == '；' || c == ';' || c == '/' ||
    c == '\\' || c == '|' || isPySpace c

/-- `re.split(r'[...]+', l)`: split on runs of class characters. -/
def splitRunsFuel : Nat → (Char → Bool) → List Char → List (List Char)
  | 0, _, l => [l]
  | _ + 1, _, [] => [[]]
  | fuel + 1, p, l =>
    let chunk := l.takeWhile (fun x => !p x)
    let rest := l.dropWhile (fun x => !p x)
    match rest with
    | [] => [chunk]
    | _ => chunk :: splitRunsFuel fuel p (rest.dropWhile p)

/-- `_validate_answer_relaxed` (src/utils.py lines 831-854). -/
def validate_answer_relaxed (answer : String) (question_type : String) : Bool :=
  if pyStrip answer = "" then false
  else if question_type = "multiple" then
    if relaxSeps.any (fun c => c ∈ answer.data) then
      let parts := splitRunsFuel answer.data.length relaxSplitClass answer.data
      decide (2 ≤ ((parts.map stripL).filter
        (fun p => decide (2 ≤ p.length))).length)
    else true
  else if question_type = "single" then decide (2 ≤ (pyStrip answer).data.length)
  else true

def firstUpperLetter : List Char → Option Char
  | [] => none
  | c :: cs => if 'A' ≤ c ∧ c ≤ 'Z' then some c else firstUpperLetter cs

/-- `_validate_single_choice` (src/utils.py lines 627-651); the capture of
`re.search(r'[选项]?([A-Z])[选项]?', ·)` on the uppercased text is its
first uppercase letter. -/
def validate_single_choice (answer : String) (lm : List (Char × String))
    (texts : List String) : Bool :=
  let an := normalizeText answer
  if an ∈ texts then true
  else if (match an.data with
    | [c] => (lookupLabel lm (upperChar c)).isSome
    | _ => false) then true
  else if (match firstUpperLetter (upperStr an).data with
    | some c => (lookupLabel lm c).isSome
    | none => false) then true
  else if texts.any (fun opt =>
      infixOfL an.data opt.data && decide (3 ≤ an.data.length)) then true
  else false

def isAsciiLetter (c : Char) : Bool :=
  decide (('A' ≤ c ∧ c ≤ 'Z') ∨ ('a' ≤ c ∧ c ≤ 'z'))

/-- The separator class `[，,;/\\|；;\s]` of `_parse_multiple_answer_parts`. -/
def multiSepClass (c : Char) : Bool :=
  c == '，' || c == ',' || c == ';' || c == '/' || c == '\\' || c == '|' ||
    c == '；' || isPySpace c

/-- `_parse_multiple_answer_parts` (src/utils.py lines 707-734). -/
def parse_multiple_answer_parts (answer : String)
    (lm : List (Char × String)) : List String :=
  let an := normalizeText answer
  if (2 ≤ an.data.length ∧ an.data.all isAsciiLetter)
      ∧ an.data.all (fun c => (lookupLabel lm (upperChar c)).isSome) then
    an.data.map (fun c => (lookupLabel lm (upperChar c)).getD "")
  else
    let temp := an.data.map (fun c => if multiSepClass c then '#' else c)
    let parts := strippedParts (splitOnCharL '#' temp)
    parts.map (fun p =>
      match p.data with
      | [c] =>
        match lookupLabel lm (upperChar c) with
        | some t => t
        | none => p
      | _ => p)

/-- `_find_matching_option` (src/utils.py lines 737-758); the float ratio
test `len(part)/len(option) >= 0.5` is the exact `2*len(part) >=
len(option)` for the engine's string sizes. -/
def find_matching_option (part : String) (texts : List String) :
    Option String :=
  let pn := normalizeText part
  match texts.find? (fun opt => pn == normalizeText opt) with
  | some opt => some opt
  | none =>
    texts.find? (fun opt =>
      let onn := normalizeText opt
      infixOfL pn.data onn.data &&
        (decide (6 ≤ pn.data.length) ||
          (decide (4 ≤ pn.data.length) &&
            decide (onn.data.length ≤ 2 * pn.data.length))))

/-- `_check_multiple_count` (src/utils.py lines 761-768); the config flags
`ENABLE_STRICT_MULTIPLE_MIN` / `MULTIPLE_MIN_COUNT` are absent from
config.py, so the minimum is the default 2. -/
def check_multiple_count (parts : List String) : Bool :=
  decide (2 ≤ (dedupKeepFirst parts).length)

/-- Python `\w` (plus the explicit `一-龥`) modelled as ASCII
alphanumerics, underscore, and CJK unified ideographs. -/
def isWordChar (c : Char) : Bool :=
  decide (('A' ≤ c ∧ c ≤ 'Z') ∨ ('a' ≤ c ∧ c ≤ 'z') ∨ ('0' ≤ c ∧ c ≤ '9')
    ∨ c = '_' ∨ (0x4E00 ≤ c.toNat ∧ c.toNat ≤ 0x9FFF))

/-- `re.match(r'^[^\w一-龥]+$', p)`: nonempty and all
non-word characters. -/
def isPurePunct (p : String) : Bool :=
  !p.data.isEmpty && p.data.all (fun c => !isWordChar c)

/-- Method 1 of `_validate_multiple_choice`: every part matches an option
text exactly. -/
def multiMethod1 (parts texts : List String) : Bool :=
  parts.all (fun p => p ∈ texts.map normalizeText)

/-- Method 2: every part is a known single-letter label. -/
def multiMethod2 (parts : List String) (lm : List (Char × String)) : Bool :=
  parts.all (fun p =>
    match p.data with
    | [c] => (lookupLabel lm (upperChar c)).isSome
    | _ => false)

/-- The matched-option collection of method 3 (empty when any part fails). -/
def collectMatches (parts texts : List String) : List String :=
  if parts.all (fun p => (find_matching_option p texts).isSome) then
    parts.filterMap (fun p => find_matching_option p texts)
  else []

/-- Method 3: all parts substring-match distinct options (≥ 2 distinct). -/
def multiMethod3 (parts texts : List String) : Bool :=
  let m := collectMatches parts texts
  !m.isEmpty && decide (2 ≤ (dedupKeepFirst m).length)

def validParts (parts : List String) : List String :=
  parts.filter (fun p => decide (2 ≤ p.data.length) && !isPurePunct p)

def sumLen (parts : List String) : Nat :=
  (parts.map (fun p => p.data.length)).sum

/-- Method 4, the controlled relaxation (src/utils.py lines 693-697):
≥ 2 parts, ≥ 2 valid parts, and total valid length ≥ 10. -/
def multiMethod4 (parts : List String) : Bool :=
  decide (2 ≤ parts.length) && decide (2 ≤ (validParts parts).length) &&
    decide (10 ≤ sumLen (validParts parts))

/-- `_validate_multiple_choice` (src/utils.py lines 654-704). -/
def validate_multiple_choice (answer : String) (lm : List (Char × String))
    (texts : List String) : Bool :=
  let parts0 := parse_multiple_answer_parts answer lm
  if parts0.isEmpty then false
  else
    let parts := dedupKeepFirst ((parts0.filter (fun p => !(p == ""))).map
      normalizeText)
    if parts.isEmpty then false
    else if multiMethod1 parts texts then check_multiple_count parts
    else if multiMethod2 parts lm then check_multiple_count parts
    else if multiMethod3 parts texts then true
    else if multiMethod4 parts then true
    else false

/-- `_validate_choice_answer` (src/utils.py lines 534-559); the
`except`-to-relaxed fallback is unreachable in the total model. -/
def validate_choice_answer (answer question_type options question : String) :
    Bool :=
  let pr := parse_options_smart options question
  if pr.2.isEmpty then validate_answer_relaxed answer question_type
  else if is_judgement_like_answer answer then false
  else if question_type = "single" then validate_single_choice answer pr.1 pr.2
  else validate_multiple_choice answer pr.1 pr.2

/-- A JSON string literal without escapes; `(content, rest)`. -/
def jsonStringLit (l : List Char) : Option (String × List Char) :=
  match l with
  | '"' :: r =>
    match breakFirstL ['"'] r with
    | some (b, rest) => if '\\' ∈ b then none else some (⟨b⟩, rest)
    | none => none
  | _ => none

/-- After one array element: `(, "lit")* ]` then end. -/
def jsonArrayTail : Nat → List Char → Bool
  | 0, _ => false
  | fuel + 1, l =>
    match l.dropWhile isPySpace with
    | ']' :: r => (r.dropWhile isPySpace).isEmpty
    | ',' :: r =>
      match jsonStringLit (r.dropWhile isPySpace) with
      | some (_, rest) => jsonArrayTail fuel rest
      | none => false
    | _ => false

/-- `_preprocess_completion_answer` (src/utils.py lines 816-828), with
`json.loads` modelled for escape-free JSON string literals and arrays of
such literals; every other input behaves as a parse failure and is
returned verbatim (JSON numbers, being neither list nor str, also fall
through to the raw answer in the source). -/
def preprocess_completion_answer (answer : String) : String :=
  let l := answer.data.dropWhile isPySpace
  match jsonStringLit l with
  | some (s, rest) => if (rest.dropWhile isPySpace).isEmpty then s else answer
  | none =>
    match l with
    | '[' :: r =>
      match jsonStringLit (r.dropWhile isPySpace) with
      | some (s, rest) => if jsonArrayTail rest.length rest then s else answer
      | none => answer
    | _ => answer

/-- The verification prompt built by `_validate_completion_answer`
(src/utils.py lines 786-791). -/
def mkValidationPrompt (question processed : String) : String :=
  "请判断以下填空题的答案是否正确：\n\n问题：" ++ question ++ "\n答案："
    ++ processed ++ "\n\n请回答：这个答案是否正确？只回答\"正确\"或\"错误\"。"

def completionTrueList : List String := ["正确", "对", "是", "true", "yes"]

def completionFalseList : List String := ["错误", "错", "否", "false", "no"]

/-- `_validate_completion_answer` (src/utils.py lines 771-813).  The one
delegated generative-backend call is the oracle `ai`; `none` models a
raised exception (or a failed import), which the source catches and maps
to `True`. -/
def validate_completion_answer (ai : String → Option String)
    (answer question : String) : Bool :=
  if pyStrip answer = "" ∨ question = "" then false
  else
    let processed := preprocess_completion_answer answer
    match ai (mkValidationPrompt question processed) with
    | none => true
    | some r =>
      let v := normalizeText r
      if v ∈ completionTrueList then true
      else if v ∈ completionFalseList then false
      else true

/-- `validate_external_answer` of src/utils.py (lines 388-453); the
`isinstance` guard and the `try`/`except` fallbacks are unreachable in the
total model. -/
def validate_external_answer (ai : String → Option String)
    (answer question_type options question : String) : Bool :=
  let answer := pyStrip answer
  let question_type := pyStrip (lowerStr question_type)
  let options := pyStrip options
  let question := pyStrip question
  if answer = "" then false
  else
    let answer_normalized := normalizeText answer
    if is_not_found_answer answer then false
    else if question_type = "judgement" then
      validate_judgement_answer answer_normalized
    else if question_type = "single" ∨ question_type = "multiple" then
      validate_choice_answer answer_normalized question_type options question
    else if question_type = "completion" then
      validate_completion_answer ai answer question
    else decide (¬ pyStrip answer = "")

theorem validate_judgement_answer_iff (x : String) :
    validate_judgement_answer x = true ↔
      ∃ v ∈ validJudList,
        (v.data <:+: stripModifier (pyStrip (lowerStr x)).data ∨
          stripModifier (pyStrip (lowerStr x)).data <:+: v.data) := by
  unfold validate_judgement_answer
  dsimp only
  constructor
  · intro h
    split_ifs at h with g1 g2 g3
    · rw [List.any_eq_true] at g1
      obtain ⟨v, hv, hvv⟩ := g1
      rcases (Bool.or_eq_true _ _).mp hvv with hl | hr
      · exact ⟨v, hv, Or.inl ((infixOfL_iff _ _).mp hl)⟩
      · exact ⟨v, hv, Or.inr ((infixOfL_iff _ _).mp hr)⟩
    · rw [List.any_eq_true] at g2
      obtain ⟨v, hv, hvv⟩ := g2
      have hsub : ∀ w ∈ (["正确", "对", "是", "true", "yes", "√"] : List String),
          w ∈ validJudList := by decide
      exact ⟨v, hsub v hv,
        Or.inl (List.isPrefixOf_iff_prefix.mp hvv).isInfix⟩
    · rw [List.any_eq_true] at g3
      obtain ⟨v, hv, hvv⟩ := g3
      have hsub : ∀ w ∈ (["错误", "错", "否", "false", "no", "×"] : List String),
          w ∈ validJudList := by decide
      exact ⟨v, hsub v hv,
        Or.inl (List.isPrefixOf_iff_prefix.mp hvv).isInfix⟩
  · rintro ⟨v, hv, hcase⟩
    rw [if_pos ?_]
    rw [List.any_eq_true]
    refine ⟨v, hv, (Bool.or_eq_true _ _).mpr ?_⟩
    rcases hcase with hl | hr
    · exact Or.inl ((infixOfL_iff _ _).mpr hl)
    · exact Or.inr ((infixOfL_iff _ _).mpr hr)

/-- C4 (amended): for a non-empty, non-sentinel candidate of type
judgement, `validate_external_answer` accepts iff, after normalization,
lowering and removal of one leading discourse marker, the candidate and
some member of the fixed synonym list contain one another as substrings
(Python's bidirectional `in` test — not exact equality); the options and
question text play no role, so judgement candidates never flow through
option matching. -/
theorem judgement_validation_characterization (ai : String → Option String)
    (a opts q : String)
    (h1 : ¬ pyStrip a = "") (h2 : is_not_found_answer (pyStrip a) = false) :
    validate_external_answer ai a "judgement" opts q = true ↔
      ∃ v ∈ validJudList,
        (v.data <:+: stripModifier
            (pyStrip (lowerStr (normalizeText (pyStrip a)))).data ∨
          stripModifier
            (pyStrip (lowerStr (normalizeText (pyStrip a)))).data <:+: v.data) := by
  unfold validate_external_answer
  dsimp only
  rw [show pyStrip (lowerStr "judgement") = "judgement" from by decide]
  rw [if_neg h1, if_neg (by rw [h2]; exact Bool.false_ne_true), if_pos rfl]
  exact validate_judgement_answer_iff _

/-- C4 counterexample: `大对啊` is not a synonym, yet it is accepted for
judgement (it merely contains `对`). -/
theorem judgement_validation_claim_cex :
    validate_external_answer (fun _ => none) "大对啊" "judgement" "" "" = true ∧
      ("大对啊" : String) ∉ validJudList := by
  refine ⟨by decide, by decide⟩

/-- Witness for C4 at the exact synonym `对`. -/
theorem judgement_validation_characterization_witness :
    validate_external_answer (fun _ => none) "对" "judgement" "" "" = true :=
  (judgement_validation_characterization (fun _ => none) "对" "" ""
    (by decide) (by decide)).mpr
    ⟨"对", by decide, Or.inl ((infixOfL_iff _ _).mp (by decide))⟩

theorem validate_external_dispatch_choice (ai : String → Option String)
    (a opts q qt : String) (hqt : qt = "single" ∨ qt = "multiple")
    (h1 : ¬ pyStrip a = "") (h2 : is_not_found_answer (pyStrip a) = false) :
    validate_external_answer ai a qt opts q =
      validate_choice_answer (normalizeText (pyStrip a)) qt (pyStrip opts)
        (pyStrip q) := by
  rcases hqt with rfl | rfl
  · unfold validate_external_answer
    dsimp only
    rw [show pyStrip (lowerStr "single") = "single" from by decide]
    rw [if_neg h1, if_neg (by rw [h2]; exact Bool.false_ne_true),
      if_neg (by decide), if_pos (Or.inl rfl)]
  · unfold validate_external_answer
    dsimp only
    rw [show pyStrip (lowerStr "multiple") = "multiple" from by decide]
    rw [if_neg h1, if_neg (by rw [h2]; exact Bool.false_ne_true),
      if_neg (by decide), if_pos (Or.inr rfl)]

/-- C5 (amended): with a successfully parsed (newline-delimited, non-empty)
option list, the cross-type guard rejects any candidate that contains a
judgement keyword as a substring — not only candidates that are themselves
judgement synonyms; a candidate free of judgement keywords passes the
guard, and for Single one that equals a parsed option text is accepted by
option matching. -/
theorem choice_guard_characterization (ai : String → Option String)
    (qt a opts q : String) (hqt : qt = "single" ∨ qt = "multiple")
    (h1 : ¬ pyStrip a = "") (h2 : is_not_found_answer (pyStrip a) = false)
    (h3 : occursStr "\n" (pyStrip opts) = true)
    (h4 : (parse_options_smart (pyStrip opts) (pyStrip q)).2 ≠ []) :
    (is_judgement_like_answer (normalizeText (pyStrip a)) = true →
      validate_external_answer ai a qt opts q = false) ∧
    (qt = "single" →
      is_judgement_like_answer (normalizeText (pyStrip a)) = false →
      normalizeText (normalizeText (pyStrip a))
          ∈ (parse_options_smart (pyStrip opts) (pyStrip q)).2 →
      validate_external_answer ai a qt opts q = true) := by
  rw [validate_external_dispatch_choice ai a opts q qt hqt h1 h2]
  constructor
  · intro hj
    unfold validate_choice_answer
    dsimp only
    rw [if_neg (fun hh => h4 (List.isEmpty_iff.mp hh)), if_pos hj]
  · rintro rfl hj hmem
    unfold validate_choice_answer
    dsimp only
    rw [if_neg (fun hh => h4 (List.isEmpty_iff.mp hh)),
      if_neg (by rw [hj]; exact Bool.false_ne_true), if_pos rfl]
    unfold validate_single_choice
    dsimp only
    rw [if_pos hmem]

/-- C5 counterexample: the candidate `对外贸易` exactly equals parsed
option A and is not a judgement synonym, yet the guard rejects it because
it contains the keyword `对`. -/
theorem choice_guard_claim_cex :
    validate_external_answer (fun _ => none) "对外贸易" "single"
        "A. 对外贸易\nB. 闭关锁国" "" = false ∧
      ("对外贸易" : String)
        ∈ (parse_options_smart "A. 对外贸易\nB. 闭关锁国" "").2 ∧
      ("对外贸易" : String) ∉ validJudList := by
  refine ⟨by decide, by decide, by decide⟩

/-- Witness for C5: a keyword-free candidate equal to option A passes the
guard and is accepted. -/
theorem choice_guard_characterization_witness :
    validate_external_answer (fun _ => none) "京师兵" "single"
      "A. 京师兵\nB. 郡县兵\nC. 贵族卫队\nD. 边兵" "" = true :=
  (choice_guard_characterization (fun _ => none) "single" "京师兵"
    "A. 京师兵\nB. 郡县兵\nC. 贵族卫队\nD. 边兵" "" (Or.inl rfl)
    (by decide) (by decide) (by decide) (by decide)).2 rfl (by decide)
    (by decide)

/-- C6 (amended): in `_validate_multiple_choice`, when exact matching,
label matching and substring matching all fail, the candidate is accepted
iff it has ≥ 2 fragments, ≥ 2 valid fragments (length ≥ 2, not pure
punctuation) **and** the total length of the valid fragments is ≥ 10 —
the length-sum condition is required, beyond the claimed two. -/
theorem multiple_relaxed_acceptance (answer : String)
    (lm : List (Char × String)) (texts : List String) (parts : List String)
    (hp : dedupKeepFirst (((parse_multiple_answer_parts answer lm).filter
      (fun p => !(p == ""))).map normalizeText) = parts)
    (hm1 : multiMethod1 parts texts = false)
    (hm2 : multiMethod2 parts lm = false)
    (hm3 : multiMethod3 parts texts = false) :
    validate_multiple_choice answer lm texts = true ↔
      2 ≤ parts.length ∧ 2 ≤ (validParts parts).length ∧
        10 ≤ sumLen (validParts parts) := by
  unfold validate_multiple_choice
  dsimp only
  have h0 : ¬ (parse_multiple_answer_parts answer lm).isEmpty = true := by
    intro hh
    rw [List.isEmpty_iff] at hh
    rw [hh] at hp
    simp [dedupKeepFirst, dedupKeepFirstAux] at hp
    rw [hp] at hm1
    unfold multiMethod1 at hm1
    simp at hm1
  rw [if_neg h0, hp]
  have hne : ¬ parts.isEmpty = true := by
    intro hh
    rw [List.isEmpty_iff] at hh
    rw [hh] at hm1
    unfold multiMethod1 at hm1
    simp at hm1
  rw [if_neg hne, if_neg (by rw [hm1]; exact Bool.false_ne_true),
    if_neg (by rw [hm2]; exact Bool.false_ne_true),
    if_neg (by rw [hm3]; exact Bool.false_ne_true)]
  constructor
  · intro h
    split_ifs at h with g
    unfold multiMethod4 at g
    rw [Bool.and_eq_true, Bool.and_eq_true] at g
    exact ⟨of_decide_eq_true g.1.1, of_decide_eq_true g.1.2,
      of_decide_eq_true g.2⟩
  · rintro ⟨ha, hb, hc⟩
    rw [if_pos ?_]
    unfold multiMethod4
    rw [Bool.and_eq_true, Bool.and_eq_true]
    exact ⟨⟨decide_eq_true ha, decide_eq_true hb⟩, decide_eq_true hc⟩

/-- C6 counterexample: `ab#cd` has two fragments, each of length 2, not
pure punctuation, and no option matches — yet it is rejected, because the
total fragment length 4 is below the additional `>= 10` requirement. -/
theorem multiple_relaxed_claim_cex :
    validate_external_answer (fun _ => none) "ab#cd" "multiple"
        "A. 京师兵\nB. 郡县兵\nC. 贵族卫队\nD. 边兵" "" = false ∧
      parse_multiple_answer_parts "ab#cd"
          (parse_options_smart "A. 京师兵\nB. 郡县兵\nC. 贵族卫队\nD. 边兵" "").1
        = ["ab", "cd"] ∧
      (validParts ["ab", "cd"]).length = 2 := by
  refine ⟨by decide, by decide, by decide⟩

/-- Witness for C6 with fragments totalling length 10. -/
theorem multiple_relaxed_acceptance_witness :
    validate_multiple_choice "abcde#fghij" [] ["京师兵"] = true :=
  (multiple_relaxed_acceptance "abcde#fghij" [] ["京师兵"]
    ["abcde", "fghij"] (by decide) (by decide) (by decide) (by decide)).mpr
    (by decide)

/-- C7: for every question type and every oracle, a candidate that is
empty after stripping or matches a not-found sentinel is rejected before
any type-specific validation can run. -/
theorem notfound_rejection (ai : String → Option String)
    (a qt opts q : String)
    (h : pyStrip a = "" ∨ is_not_found_answer (pyStrip a) = true) :
    validate_external_answer ai a qt opts q = false := by
  unfold validate_external_answer
  dsimp only
  rcases h with h | h
  · rw [if_pos h]
  · by_cases he : pyStrip a = ""
    · rw [if_pos he]
    · rw [if_neg he, if_pos h]

/-- Witness for C7: the literal not-found phrase is rejected even though
the backend oracle would report the answer as correct. -/
theorem notfound_rejection_witness :
    validate_external_answer (fun _ => some "正确") "非常抱歉，未找到"
      "completion" "" "某题" = false :=
  notfound_rejection (fun _ => some "正确") "非常抱歉，未找到" "completion"
    "" "某题" (Or.inr (by decide))

/-- C8: for a non-empty completion candidate with a non-empty question, if
the one delegated backend call raises (oracle `none`) or returns a reply
outside both canonical families, validation accepts — the failure is
absorbed locally (fail-open) and never propagated. -/
theorem completion_fail_open (ai : String → Option String) (a opts q : String)
    (h1 : ¬ pyStrip a = "") (h2 : is_not_found_answer (pyStrip a) = false)
    (h3 : ¬ pyStrip q = "")
    (h4 : ∀ p, ai p = none ∨ ∀ r, ai p = some r →
      normalizeText r ∉ completionTrueList ∧
        normalizeText r ∉ completionFalseList) :
    validate_external_answer ai a "completion" opts q = true := by
  unfold validate_external_answer
  dsimp only
  rw [show pyStrip (lowerStr "completion") = "completion" from by decide]
  rw [if_neg h1, if_neg (by rw [h2]; exact Bool.false_ne_true),
    if_neg (by decide), if_neg (by rintro (h | h) <;> simp at h),
    if_pos rfl]
  unfold validate_completion_answer
  rw [if_neg ?_]
  · dsimp only
    rcases h4 (mkValidationPrompt (pyStrip q)
        (preprocess_completion_answer (pyStrip a))) with hnone | hsome
    · rw [hnone]
    · cases hai : ai (mkValidationPrompt (pyStrip q)
          (preprocess_completion_answer (pyStrip a))) with
      | none => rfl
      | some r =>
        dsimp only
        obtain ⟨hT, hF⟩ := hsome r hai
        rw [if_neg hT, if_neg hF]
  · rintro (hh | hh)
    · rw [pyStrip_idem] at hh
      exact h1 hh
    · exact h3 hh

/-- Witness for C8 with an always-failing oracle. -/
theorem completion_fail_open_witness :
    validate_external_answer (fun _ => none) "myanswer" "completion" ""
      "某道填空题" = true :=
  completion_fail_open (fun _ => none) "myanswer" "" "某道填空题"
    (by decide) (by decide) (by decide) (fun _ => Or.inl rfl)

/-- C10 (implicit): for any question type outside the four known ones —
the empty string included — a candidate that is non-empty after stripping
and not a not-found sentinel is accepted; the unrecognized type itself
never causes rejection or an error. -/
theorem unknown_type_accepts (ai : String → Option String)
    (a qt opts q : String)
    (h1 : ¬ pyStrip a = "") (h2 : is_not_found_answer (pyStrip a) = false)
    (h3 : pyStrip (lowerStr qt) ≠ "judgement")
    (h4 : pyStrip (lowerStr qt) ≠ "single")
    (h5 : pyStrip (lowerStr qt) ≠ "multiple")
    (h6 : pyStrip (lowerStr qt) ≠ "completion") :
    validate_external_answer ai a qt opts q = true := by
  unfold validate_external_answer
  dsimp only
  rw [if_neg h1, if_neg (by rw [h2]; exact Bool.false_ne_true), if_neg h3,
    if_neg (by rintro (h | h); exacts [h4 h, h5 h]), if_neg h6,
    pyStrip_idem]
  exact decide_eq_true h1

/-- Witness for C10 at the empty question type. -/
theorem unknown_type_accepts_witness :
    validate_external_answer (fun _ => none) "某个答案" "" "" "" = true :=
  unknown_type_accepts (fun _ => none) "某个答案" "" "" "" (by decide)
    (by decide) (by decide) (by decide) (by decide) (by decide)
